import Mathlib

/-!
Shallow embedding of the `rust-portforward` repository, checked against its
natural-language specification.

Source files embedded:
* `src/Config/mod.rs`   — forwarding-rule parsing, merging, dedup, sort;
* `src/main.rs`         — thread-based entry point: bind loop, accept loop,
                          buffered fan-out forward loop;
* `src/ConnHandle/mod.rs` — async listener, duplex relay copy loop, half-close
                          and error aggregation;
* `src/Meter/mod.rs`    — throughput meter: window fold, rate computation,
                          window compaction, message sending.

Rust machine integers (`u16` ports, `usize` byte counts, `u128` microsecond
instants) are represented as `Nat`: every operation performed on them here
(comparison, addition of byte counts, saturating-free subtraction of ordered
instants) stays well inside their ranges, so no wrap-around modelling is
needed.  Bytes are represented as `Nat` as well — the relay is byte-agnostic.
Fallible Rust operations return `Except`/`Option`; a Rust `panic!` is
modelled as `Option.none`.  External effects (the OS accepting a bind, the
outcome of a TCP write, the result of a socket shutdown) enter as explicit
oracle parameters.
-/

namespace Portforward

/-! ## Config/mod.rs -/

/-- One forwarding rule, `Config::Forward { s_port: u16, target: SocketAddr }`.
The target socket address is abstracted to a `Nat` identifier: the merging,
dedup and sort logic of `get_config` only ever inspects `s_port` and carries
the target along unchanged. -/
structure Forward where
  s_port : Nat
  target : Nat
deriving DecidableEq, Repr

/-- The CLI loop of `get_config` (Config/mod.rs lines 103-119): each free
argument's parsed rule is appended to the accumulator unless its source port
is already present, in which case the whole call errs. -/
def cliLoop (acc : List Forward) : List Forward → Except String (List Forward)
  | [] => Except.ok acc
  | f :: rest =>
    if (acc.map Forward.s_port).contains f.s_port then
      Except.error ("Cannot declare the same port twice. Found "
        ++ toString f.s_port ++ " twice.")
    else cliLoop (acc ++ [f]) rest

/-- The config-file loop of `get_config` (Config/mod.rs lines 121-128): a file
rule is appended only when no already-collected rule (CLI or earlier file
line) has the same source port; otherwise it is silently dropped. -/
def fileLoop (acc : List Forward) : List Forward → List Forward
  | [] => acc
  | f :: rest =>
    if acc.length = 0 ∨ acc.all (fun g => g.s_port ≠ f.s_port) then
      fileLoop (acc ++ [f]) rest
    else fileLoop acc rest

/-- Comparison used by `forwards.sort_by(|f1, f2| f1.s_port.cmp(&f2.s_port))`
(Config/mod.rs line 136). -/
def portLE (f g : Forward) : Prop := f.s_port ≤ g.s_port

instance : DecidableRel portLE := fun f g => Nat.decLe f.s_port g.s_port

instance : IsTotal Forward portLE := ⟨fun f g => Nat.le_total f.s_port g.s_port⟩

instance : IsTrans Forward portLE := ⟨fun _ _ _ h h' => Nat.le_trans h h'⟩

/-- The forwards pipeline of `get_config` (Config/mod.rs lines 103-143),
taking the already-parsed CLI rules (`matches.free` after `get_forward`) and
file rules (`read_config_file` output) as inputs: collect CLI rules (error on
a repeated source port), append fresh-port file rules, reject an empty rule
set, and sort ascending by source port.  Rust's `sort_by` is a stable
comparison sort; it is embedded as Mathlib's (stable) insertion sort. -/
def get_config_forwards (cli file : List Forward) : Except String (List Forward) :=
  match cliLoop [] cli with
  | Except.error e => Except.error e
  | Except.ok fs =>
    let fs := fileLoop fs file
    if fs.length = 0 then Except.error "no forward list found"
    else Except.ok (List.insertionSort portLE fs)

/-- The first two lines of `get_forward` (Config/mod.rs lines 44-47): take the
first `:`-separated component of the argument, then slice the string starting
at one past that component's length.  The Rust slice `&s[s_port.len() + 1..]`
panics when the start index exceeds the string length; the panic is modelled
as `none`.  (Strings are byte strings; `':'` is one byte, so `List Char`
positions coincide with Rust byte positions on the inputs of interest.) -/
def get_forward_slice (s : List Char) : Option (List Char × List Char) :=
  let s_port := s.takeWhile (fun c => c ≠ ':')
  if s_port.length + 1 ≤ s.length then
    some (s_port, s.drop (s_port.length + 1))
  else none

/-! ## main.rs: bind loop -/

/-- The listener-creation loop of `main` (main.rs lines 30-46), run over the
source ports of the sorted rule set.  `bindOk` is the OS oracle saying
whether binding a given port succeeds.  On success the listener thread is
spawned and the loop continues; on the first failure `main` returns
`Err("Failed to bind to port {port}")` immediately, so the remaining rules
are never reached.  Returns the ports whose listeners were spawned and the
reported error, if any. -/
def main_listen_loop (bindOk : Nat → Bool) : List Nat → List Nat × Option String
  | [] => ([], none)
  | p :: rest =>
    if bindOk p then
      let r := main_listen_loop bindOk rest
      (p :: r.1, r.2)
    else ([], some ("Failed to bind to port " ++ toString p))

/-! ## ConnHandle/mod.rs: relay copy loop, half-close, error aggregation -/

/-- Kinds of `std::io::Error` that the embedded code distinguishes:
`ErrorKind::NotConnected` is special-cased by `handle_forward`'s half-close;
every other kind is carried opaquely as a numeric code. -/
inductive IOKind where
  | notConnected : IOKind
  | other : Nat → IOKind
deriving DecidableEq, Repr

instance {ε α : Type} [DecidableEq ε] [DecidableEq α] : DecidableEq (Except ε α)
  | Except.ok a, Except.ok b =>
    if h : a = b then isTrue (by rw [h])
    else isFalse (by intro hh; cases hh; exact h rfl)
  | Except.ok _, Except.error _ => isFalse (by intro h; cases h)
  | Except.error _, Except.ok _ => isFalse (by intro h; cases h)
  | Except.error e, Except.error e' =>
    if h : e = e' then isTrue (by rw [h])
    else isFalse (by intro hh; cases hh; exact h rfl)

/-- Observable outcome of one run of `forward_loop` (ConnHandle/mod.rs lines
243-260): the byte chunks actually delivered to the target write half (one
entry per `write` call, each a prefix of the chunk the call was given), the
arguments passed to the meter callback in order, and the loop's returned
`Result`. -/
structure LoopOut where
  delivered : List (List Nat)
  metered : List Nat
  res : Except IOKind Unit
deriving DecidableEq, Repr

/-- The body of `forward_loop`: `reads` is the oracle sequence of results of
successive `src_rstream.read(&mut buff)` calls (`Except.ok c` a successful
read of chunk `c`, the empty chunk being a zero-byte end-of-stream read), and
`wa i n` is the oracle outcome of the `i`-th `tgt_wstream.write` call on a
chunk of length `n` — an error, or the number of bytes the socket accepted
(at most `n`; clamped by `min` to keep the model total).  Faithful to the
source, the returned count of `write` is discarded: the loop neither retries
the unwritten tail nor reports it.  After each write the meter callback gets
the number of bytes *read*.  An exhausted `reads` list (a read that never
returns) ends the model with what was delivered so far. -/
def forward_loop_aux (wa : Nat → Nat → Except IOKind Nat) :
    List (Except IOKind (List Nat)) → Nat → LoopOut
  | [], _ => ⟨[], [], Except.ok ()⟩
  | Except.error e :: _, _ => ⟨[], [], Except.error e⟩
  | Except.ok c :: rest, i =>
    if c.length = 0 then ⟨[], [], Except.ok ()⟩
    else
      match wa i c.length with
      | Except.error e => ⟨[], [], Except.error e⟩
      | Except.ok k =>
        let r := forward_loop_aux wa rest (i + 1)
        ⟨c.take (min k c.length) :: r.delivered, c.length :: r.metered, r.res⟩

/-- `forward_loop` (ConnHandle/mod.rs lines 243-260), including the initial
`meter_msg_send_fn(0)` emitted before the loop to register the endpoint. -/
def forward_loop (wa : Nat → Nat → Except IOKind Nat)
    (reads : List (Except IOKind (List Nat))) : LoopOut :=
  let r := forward_loop_aux wa reads 0
  ⟨r.delivered, 0 :: r.metered, r.res⟩

/-- A TCP connection's two independent directions, as seen from one end. -/
structure TcpDuplex where
  readOpen : Bool
  writeOpen : Bool
deriving DecidableEq, Repr

/-- `tgt_wstream.shutdown()` on a tokio `OwnedWriteHalf` (ConnHandle/mod.rs
line 219): shuts down the write direction of the socket only — the read
direction is untouched. -/
def shutdown_write (s : TcpDuplex) : TcpDuplex :=
  { s with writeOpen := false }

/-- The interpretation `handle_forward` gives the half-close result
(ConnHandle/mod.rs lines 219-223): `Ok` stays `Ok`, an
`ErrorKind::NotConnected` error is converted to `Ok`, anything else stays an
error. -/
def shutdown_result_map (sres : Except IOKind Unit) : Except IOKind Unit :=
  match sres with
  | Except.ok _ => Except.ok ()
  | Except.error e => if e = IOKind.notConnected then Except.ok () else Except.error e

/-- `HandleForwardError` (ConnHandle/mod.rs lines 186-189): the aggregate of
the copy loop's error and the half-close's error. -/
structure HandleForwardError where
  loop_error : Option IOKind
  shutdown_error : Option IOKind
deriving DecidableEq, Repr

/-- `handle_forward` (ConnHandle/mod.rs lines 205-241): run the copy loop,
then half-close the target's write half regardless of the loop's outcome
(`sres` is the OS oracle for the shutdown call, filtered through
`shutdown_result_map`), and gather both errors into one aggregate value,
returning `Ok` only when neither step failed.  The result carries the loop
observables, the target socket's state after the half-close, and the
aggregate `Result`. -/
def handle_forward (wa : Nat → Nat → Except IOKind Nat)
    (reads : List (Except IOKind (List Nat))) (tgtSock : TcpDuplex)
    (sres : Except IOKind Unit) :
    LoopOut × TcpDuplex × Except HandleForwardError Unit :=
  let lr := forward_loop wa reads
  let sr := shutdown_result_map sres
  let loopE : Option IOKind := match lr.res with
    | Except.ok _ => none
    | Except.error e => some e
  let shutE : Option IOKind := match sr with
    | Except.ok _ => none
    | Except.error e => some e
  (lr, shutdown_write tgtSock,
    if loopE.isNone ∧ shutE.isNone then Except.ok ()
    else Except.error ⟨loopE, shutE⟩)

/-! ## ConnHandle/mod.rs: accept loop (async) and main.rs: accept loop (sync) -/

/-- One event observed by the async accept loop of `accept_conn`
(ConnHandle/mod.rs lines 84-100): an accepted connection, a failed accept, or
the arrival of the shutdown message. -/
inductive AcceptEv where
  | conn : Nat → AcceptEv
  | aerr : Nat → AcceptEv
  | shutdownMsg : AcceptEv
deriving DecidableEq, Repr

/-- The async accept loop of `accept_conn` (ConnHandle/mod.rs lines 84-115):
each accepted connection is spawned as a handler task; a failed accept is
printed to stderr and the loop `continue`s; the shutdown message breaks the
loop.  Returns the spawned connections, the logged accept errors, and
whether the loop exited via the shutdown message. -/
def accept_loop : List AcceptEv → List Nat × List Nat × Bool
  | [] => ([], [], false)
  | AcceptEv.conn c :: rest =>
    let r := accept_loop rest
    (c :: r.1, r.2.1, r.2.2)
  | AcceptEv.aerr e :: rest =>
    let r := accept_loop rest
    (r.1, e :: r.2.1, r.2.2)
  | AcceptEv.shutdownMsg :: _ => ([], [], true)

/-- The thread-based accept loop of `accept_conn` in main.rs (lines 63-80):
`for read_stream in listener.incoming() { let read_stream =
read_stream.unwrap(); ... }` — each iteration unwraps the accept result, so
an accept error panics the listener thread.  The panic is modelled as
`Except.error` carrying the accept error; a normal run returns the handled
connections. -/
def sync_accept_loop : List (Except Nat Nat) → Except Nat (List Nat)
  | [] => Except.ok []
  | Except.error e :: _ => Except.error e
  | Except.ok c :: rest => (sync_accept_loop rest).map (fun cs => c :: cs)

/-! ## Meter/mod.rs -/

/-- `Direction` (Meter/mod.rs lines 9-13). -/
inductive Direction where
  | To : Direction
  | From : Direction
deriving DecidableEq, Repr

/-- The fold of `spawn_meter_thread` (Meter/mod.rs lines 71-85) reducing a
window's `(instant, n_bytes)` samples (instants in microseconds) to
`(min instant, max instant, total bytes)`. -/
def window_fold (v : List (Nat × Nat)) : Option (Nat × Nat × Nat) :=
  v.foldl
    (fun acc s =>
      match acc with
      | none => some (s.1, s.1, s.2)
      | some (mn, mx, t) =>
        some (if mn > s.1 then s.1 else mn,
              if mx < s.1 then s.1 else mx,
              t + s.2))
    none

/-- The per-window rate computation of one aggregation cycle
(Meter/mod.rs lines 63-95): a window with at most one sample is skipped (no
rate output); otherwise `dur_ms = max.duration_since(min).as_micros()` and
`kbytes_per_sec = t_n_bytes / (dur_ms / 1000)` — i.e. bytes per millisecond,
printed as KB/s.  The floating-point arithmetic is modelled exactly over
`ℚ`. -/
def window_rate (v : List (Nat × Nat)) : Option ℚ :=
  if v.length ≤ 1 then none
  else
    match window_fold v with
    | none => none
    | some (mn, mx, t) => some ((t : ℚ) / (((mx - mn : Nat) : ℚ) / 1000))

/-- The window compaction at the end of a cycle (Meter/mod.rs lines 66-67 and
97-98): a window with at most one sample is left as is (the `continue`); a
longer one is drained by `v.drain(..v.len() - 1)`, keeping exactly its last
element as the seed of the next window. -/
def cycle_retain (v : List (Nat × Nat)) : List (Nat × Nat) :=
  if v.length ≤ 1 then v else v.drop (v.length - 1)

/-- One aggregation cycle's effect on the whole per-(endpoint, direction)
map, compaction applied to every window (the map is modelled as an
association list). -/
def meter_compact (m : List ((Nat × Direction) × List (Nat × Nat))) :
    List ((Nat × Direction) × List (Nat × Nat)) :=
  m.map (fun kv => (kv.1, cycle_retain kv.2))

/-- `Message` (Meter/mod.rs lines 15-21). -/
structure MeterMessage where
  src_sockaddr : Nat
  direction : Direction
  instant : Nat
  n_bytes : Nat
deriving DecidableEq, Repr

/-- `std::sync::mpsc::Sender::send` as used by `MeterMessageSender::send`
(Meter/mod.rs lines 127-142): succeeds while the receiving end is alive, and
returns `Err(SendError(message))` once the receiver has been dropped. -/
def meter_send (receiverAlive : Bool) (m : MeterMessage) : Except MeterMessage Unit :=
  if receiverAlive then Except.ok () else Except.error m

/-- The meter callback a relay direction runs for each chunk
(ConnHandle/mod.rs lines 143-147 and 155-159):
`meter_msg_sender.send(src_sockaddr, direction, n_bytes).unwrap()`.  The
`unwrap` panics when `send` returns an error; the panic is modelled as
`none`. -/
def relay_meter_send (receiverAlive : Bool) (src : Nat) (dir : Direction)
    (instant n_bytes : Nat) : Option Unit :=
  match meter_send receiverAlive ⟨src, dir, instant, n_bytes⟩ with
  | Except.ok _ => some ()
  | Except.error _ => none

/-! ## Helper lemmas -/

theorem takeWhile_eq_self_of_all {p : Char → Bool} :
    ∀ (s : List Char), (∀ c ∈ s, p c = true) → s.takeWhile p = s
  | [], _ => rfl
  | c :: cs, h => by
    have hc : p c = true := h c (List.mem_cons_self c cs)
    simp only [List.takeWhile_cons, hc, if_true]
    exact congrArg (c :: ·) (takeWhile_eq_self_of_all cs fun x hx => h x (List.mem_cons_of_mem c hx))

/-! ## Claim theorems -/

/-- C10: for every forward-specification argument containing no `':'`
separator, the slicing step of `get_forward` (Config/mod.rs line 47) panics
with a string-slice out-of-range error (modelled as `none`), because it
slices the input at one past the length of the first `':'`-separated
component, which is the whole string. -/
theorem C10_get_forward_no_colon_panics (s : List Char)
    (h : ∀ c ∈ s, c ≠ ':') : get_forward_slice s = none := by
  have hall : ∀ c ∈ s, (fun c => decide (c ≠ ':')) c = true := by
    intro c hc
    simpa using h c hc
  have htw : s.takeWhile (fun c => decide (c ≠ ':')) = s :=
    takeWhile_eq_self_of_all s hall
  simp only [get_forward_slice, htw]
  have : ¬ (s.length + 1 ≤ s.length) := by omega
  simp [this]

/-- Witness for C10 at the concrete input `"8080"`. -/
theorem C10_get_forward_panic_witness : get_forward_slice "8080".toList = none :=
  C10_get_forward_no_colon_panics "8080".toList (by decide)

/-- C2 counterexample: with two rules (source ports 8080 and 9090) and an OS
in which only the bind on 8080 fails, `main` (main.rs lines 30-46) returns
the bind error immediately, and the listener for the *other* rule, 9090, is
never started — refuting "the listeners for every other rule still start and
keep serving". -/
theorem C2_counterexample_bind_failure_aborts_siblings :
    (main_listen_loop (fun q => q ≠ 8080) [8080, 9090]).2
        = some "Failed to bind to port 8080"
      ∧ 9090 ∉ (main_listen_loop (fun q => q ≠ 8080) [8080, 9090]).1 := by
  constructor
  · rfl
  · decide

/-- C2 amended: when binding the listen socket of one rule fails, the error
is reported to the caller and that rule's listener never starts; the
listeners of rules *earlier* in the (sorted) startup order have already been
spawned, but `main` returns at once, so no rule after the failing one is
started. -/
theorem C2_bind_failure_reported_and_aborts_startup
    (pre post : List Nat) (p : Nat) (bindOk : Nat → Bool)
    (hpre : ∀ q ∈ pre, bindOk q = true) (hp : bindOk p = false) :
    main_listen_loop bindOk (pre ++ p :: post) =
      (pre, some ("Failed to bind to port " ++ toString p)) := by
  induction pre with
  | nil => simp [main_listen_loop, hp]
  | cons q rest ih =>
    have hq : bindOk q = true := hpre q (List.mem_cons_self q rest)
    have ih' := ih fun x hx => hpre x (List.mem_cons_of_mem q hx)
    simp [main_listen_loop, hq, ih']

/-- Witness for C2's amended theorem: ports `[7000, 8080, 9090]` with the
bind on 8080 failing — 7000's listener was spawned, the 8080 error is
reported, 9090 never starts. -/
theorem C2_bind_failure_witness :
    main_listen_loop (fun q => q ≠ 8080) [7000, 8080, 9090] =
      ([7000], some ("Failed to bind to port " ++ toString 8080)) :=
  C2_bind_failure_reported_and_aborts_startup [7000] [9090] 8080
    (fun q => q ≠ 8080) (by decide) (by decide)

/-- C9 counterexample: a relay that emits a meter event while the meter's
event-channel receiver is gone runs
`meter_msg_sender.send(..).unwrap()` (ConnHandle/mod.rs lines 144-147): the
send returns `Err(SendError)` and the `unwrap` panics the relay task
(modelled as `none`) — refuting "the sending relay task does not fail
fatally (does not panic)". -/
theorem C9_counterexample_send_after_shutdown_panics :
    relay_meter_send false 0 Direction.From 0 100 = none := rfl

/-- C9 amended: every meter event a relay emits after the event channel's
receiver is gone makes `MeterMessageSender::send` return a `SendError`,
which the relay's callback unwraps — the relay task panics (fails fatally)
rather than tolerating the send as best-effort. -/
theorem C9_send_after_receiver_gone_panics
    (src : Nat) (dir : Direction) (instant n_bytes : Nat) :
    relay_meter_send false src dir instant n_bytes = none := rfl

/-- C5: on the event stream `(t = 0, 100 bytes)`, `(t = 500 ms, 100 bytes)`
for one (endpoint, direction) window, the meter's aggregation cycle
(Meter/mod.rs lines 63-95) computes `200 bytes / 500 ms`, i.e. the value
`2/5` in its KB/s output unit (bytes per millisecond), which is exactly
400 B/s; and every window holding fewer than two samples produces no rate
output in that cycle. -/
theorem C5_meter_rate_400_bytes_per_sec :
    window_rate [(0, 100), (500000, 100)] = some (2 / 5)
      ∧ ((2 : ℚ) / 5) * 1000 = 400
      ∧ ∀ v : List (Nat × Nat), v.length < 2 → window_rate v = none := by
  refine ⟨?_, by norm_num, ?_⟩
  · norm_num [window_rate, window_fold]
  · intro v hv
    have : v.length ≤ 1 := by omega
    simp [window_rate, this]

/-- Witness for C5's quantified conjunct: a one-sample window yields no rate. -/
theorem C5_meter_rate_witness : window_rate [(0, 100)] = none :=
  C5_meter_rate_400_bytes_per_sec.2.2 [(0, 100)] (by decide)

/-- C1: the async relay's copy loop (ConnHandle/mod.rs line 256) calls
`tgt_wstream.write(&buff[..bytes_read])` and discards the returned count.
With the source sending the two bytes `[3, 4]` in one chunk followed by EOF,
and a healthy, non-erroring target whose socket accepts only 1 byte on that
write call (a legal outcome of `AsyncWriteExt::write`), the loop reports
success yet the target receives only `[3]` — the claim's "every chunk read
is written in full to the target before the next read" fails, and only 1 of
the 2 source bytes is delivered. -/
theorem C1_forward_loop_short_write_loses_bytes :
    (forward_loop (fun _ _ => Except.ok 1)
        [Except.ok [3, 4], Except.ok []]).delivered.flatten = [3]
      ∧ (forward_loop (fun _ _ => Except.ok 1)
          [Except.ok [3, 4], Except.ok []]).res = Except.ok ()
      ∧ ([3] : List Nat) ≠ [3, 4] := by
  decide

theorem drop_length_sub_one {α : Type} :
    ∀ (v : List α) (h : v ≠ []), v.drop (v.length - 1) = [v.getLast h]
  | [a], _ => rfl
  | a :: b :: t, _ => by
    have ih := drop_length_sub_one (b :: t) (by simp)
    simp only [List.length_cons, Nat.add_sub_cancel] at ih ⊢
    calc (a :: b :: t).drop (t.length + 1) = (b :: t).drop t.length := rfl
    _ = [(b :: t).getLast (by simp)] := ih
    _ = [(a :: b :: t).getLast (by simp)] := by
        rw [List.getLast_cons (by simp : b :: t ≠ [])]

theorem cycle_retain_eq_getLast :
    ∀ (v : List (Nat × Nat)) (h : v ≠ []), cycle_retain v = [v.getLast h]
  | [a], _ => rfl
  | a :: b :: t, h => by
    unfold cycle_retain
    have hlen : ¬ ((a :: b :: t).length ≤ 1) := by simp
    rw [if_neg hlen]
    exact drop_length_sub_one _ h

theorem le_getLast_of_pairwise :
    ∀ (v : List (Nat × Nat)) (h : v ≠ []),
      v.Pairwise (fun a b => a.1 ≤ b.1) → ∀ x ∈ v, x.1 ≤ (v.getLast h).1
  | [a], _, _, x, hx => by
    rcases List.mem_singleton.mp hx with rfl
    exact Nat.le_refl _
  | a :: b :: t, _, hp, x, hx => by
    have hcons := List.pairwise_cons.mp hp
    have hlast : (a :: b :: t).getLast (by simp) = (b :: t).getLast (by simp) :=
      List.getLast_cons (by simp)
    rcases List.mem_cons.mp hx with rfl | hx'
    · have hmem : (b :: t).getLast (by simp) ∈ b :: t := List.getLast_mem _
      rw [hlast]
      exact hcons.1 _ hmem
    · rw [hlast]
      exact le_getLast_of_pairwise (b :: t) (by simp) hcons.2 x hx'

/-- C6: after an aggregation cycle of the meter, every (endpoint, direction)
window in the map holds exactly one sample — the one with the greatest
timestamp, i.e. the most recent, which is what seeds the next window — so no
window grows without bound across cycles.  The hypotheses record the meter's
operating conditions: map entries are created non-empty and stay non-empty
(Meter/mod.rs lines 53-60, 97-98), and each window's samples arrive in
nondecreasing timestamp order (one relay direction per key sending over a
FIFO channel with a monotonic clock). -/
theorem C6_cycle_retains_single_most_recent_sample
    (m : List ((Nat × Direction) × List (Nat × Nat)))
    (hne : ∀ kv ∈ m, kv.2 ≠ [])
    (hord : ∀ kv ∈ m, kv.2.Pairwise (fun a b => a.1 ≤ b.1)) :
    ∀ kv ∈ m, ∃ s, cycle_retain kv.2 = [s] ∧ s ∈ kv.2
      ∧ (∀ x ∈ kv.2, x.1 ≤ s.1) ∧ (kv.1, [s]) ∈ meter_compact m := by
  intro kv hkv
  have hne' : kv.2 ≠ [] := hne kv hkv
  have hord' : kv.2.Pairwise (fun a b : Nat × Nat => a.1 ≤ b.1) := hord kv hkv
  have hres : cycle_retain kv.2 = [kv.2.getLast hne'] :=
    cycle_retain_eq_getLast kv.2 hne'
  refine ⟨kv.2.getLast hne', hres, List.getLast_mem hne',
    le_getLast_of_pairwise kv.2 hne' hord', ?_⟩
  have hmem : (kv.1, cycle_retain kv.2) ∈ meter_compact m :=
    List.mem_map_of_mem (fun kv => (kv.1, cycle_retain kv.2)) hkv
  rw [hres] at hmem
  exact hmem

/-- Witness for C6 on a concrete two-sample window plus a one-sample
window. -/
theorem C6_cycle_retain_witness :
    ∃ s, cycle_retain [(0, 100), (5, 7)] = [s] ∧ s ∈ [(0, 100), (5, 7)]
      ∧ (∀ x ∈ [(0, 100), (5, 7)], x.1 ≤ s.1)
      ∧ (((3, Direction.To), [s]) ∈ meter_compact
          [((3, Direction.To), [(0, 100), (5, 7)]), ((3, Direction.From), [(9, 4)])]) :=
  C6_cycle_retains_single_most_recent_sample
    [((3, Direction.To), [(0, 100), (5, 7)]), ((3, Direction.From), [(9, 4)])]
    (by decide) (by decide) ((3, Direction.To), [(0, 100), (5, 7)]) (by decide)

/-- C8 counterexample: the thread-based accept loop of main.rs (lines 69-70)
unwraps each accept result; with an accept error arriving before a pending
connection, the listener thread panics at the error and the later connection
is never handled — refuting "an accept error never terminates the
listener". -/
theorem C8_counterexample_sync_accept_error_terminates :
    sync_accept_loop [Except.error 11, Except.ok 42] = Except.error 11 := rfl

theorem accept_loop_append (pre : List AcceptEv)
    (hpre : AcceptEv.shutdownMsg ∉ pre) :
    ∃ cs es, ∀ l, accept_loop (pre ++ l)
      = (cs ++ (accept_loop l).1, es ++ (accept_loop l).2.1, (accept_loop l).2.2) := by
  induction pre with
  | nil => exact ⟨[], [], fun l => rfl⟩
  | cons ev rest ih =>
    have hev : ev ≠ AcceptEv.shutdownMsg := fun h =>
      hpre (h ▸ List.mem_cons_self ev rest)
    obtain ⟨cs, es, hrec⟩ := ih fun h => hpre (List.mem_cons_of_mem ev h)
    cases ev with
    | conn c => exact ⟨c :: cs, es, fun l => by simp [accept_loop, hrec l]⟩
    | aerr e' => exact ⟨cs, e' :: es, fun l => by simp [accept_loop, hrec l]⟩
    | shutdownMsg => exact absurd rfl hev

/-- C8 amended: the two accept loops diverge.  In the async listener
(ConnHandle/mod.rs lines 84-100), an accept error is logged and the loop
continues: the connections accepted are exactly those of the same event
stream without the error, the error is logged, and shutdown behaviour is
unchanged.  In the thread-based listener (main.rs lines 63-80), an accept
error panics the listener thread immediately, terminating it. -/
theorem C8_accept_error_behavior
    (pre post : List AcceptEv) (e : Nat)
    (hpre : AcceptEv.shutdownMsg ∉ pre) :
    (accept_loop (pre ++ AcceptEv.aerr e :: post)).1 = (accept_loop (pre ++ post)).1
      ∧ e ∈ (accept_loop (pre ++ AcceptEv.aerr e :: post)).2.1
      ∧ (accept_loop (pre ++ AcceptEv.aerr e :: post)).2.2
          = (accept_loop (pre ++ post)).2.2
      ∧ ∀ evs : List (Except Nat Nat),
          sync_accept_loop (Except.error e :: evs) = Except.error e := by
  obtain ⟨cs, es, hsplit⟩ := accept_loop_append pre hpre
  have h1 := hsplit (AcceptEv.aerr e :: post)
  have h2 := hsplit post
  have he : accept_loop (AcceptEv.aerr e :: post)
      = ((accept_loop post).1, e :: (accept_loop post).2.1,
         (accept_loop post).2.2) := by
    simp [accept_loop]
  refine ⟨?_, ?_, ?_, fun _ => rfl⟩
  · rw [h1, h2, he]
  · rw [h1, he]
    simp
  · rw [h1, h2, he]

/-- Witness for C8's amended theorem on a concrete event stream. -/
theorem C8_accept_error_witness :
    (accept_loop [AcceptEv.conn 1, AcceptEv.aerr 5, AcceptEv.conn 2,
        AcceptEv.shutdownMsg]).1
      = (accept_loop [AcceptEv.conn 1, AcceptEv.conn 2, AcceptEv.shutdownMsg]).1
    ∧ 5 ∈ (accept_loop [AcceptEv.conn 1, AcceptEv.aerr 5, AcceptEv.conn 2,
        AcceptEv.shutdownMsg]).2.1
    ∧ (accept_loop [AcceptEv.conn 1, AcceptEv.aerr 5, AcceptEv.conn 2,
        AcceptEv.shutdownMsg]).2.2
      = (accept_loop [AcceptEv.conn 1, AcceptEv.conn 2, AcceptEv.shutdownMsg]).2.2
    ∧ ∀ evs : List (Except Nat Nat),
        sync_accept_loop (Except.error 5 :: evs) = Except.error 5 :=
  C8_accept_error_behavior [AcceptEv.conn 1] [AcceptEv.conn 2, AcceptEv.shutdownMsg]
    5 (by decide)

theorem cliLoop_ok :
    ∀ (cli acc : List Forward), ((acc ++ cli).map Forward.s_port).Nodup →
      cliLoop acc cli = Except.ok (acc ++ cli)
  | [], acc, _ => by simp [cliLoop]
  | f :: rest, acc, h => by
    have h' : (((acc ++ [f]) ++ rest).map Forward.s_port).Nodup := by
      rw [List.append_assoc]
      simpa using h
    have hmem : f.s_port ∉ acc.map Forward.s_port := by
      rw [List.map_append] at h
      intro hx
      exact (List.nodup_append.mp h).2.2 hx (by simp)
    have hc : ¬ ((acc.map Forward.s_port).contains f.s_port = true) := by
      simpa using hmem
    have step : cliLoop acc (f :: rest) = cliLoop (acc ++ [f]) rest := by
      simp only [cliLoop]
      rw [if_neg hc]
    rw [step, cliLoop_ok rest (acc ++ [f]) h', List.append_assoc]
    rfl

theorem cliLoop_err :
    ∀ (cli acc : List Forward), (acc.map Forward.s_port).Nodup →
      ¬ ((acc ++ cli).map Forward.s_port).Nodup →
      ∃ m, cliLoop acc cli = Except.error m
  | [], acc, h1, h2 => absurd (by simpa using h1) (by simpa using h2)
  | f :: rest, acc, h1, h2 => by
    by_cases hc : (acc.map Forward.s_port).contains f.s_port = true
    · refine ⟨"Cannot declare the same port twice. Found "
        ++ toString f.s_port ++ " twice.", ?_⟩
      simp only [cliLoop]
      rw [if_pos hc]
    · have hmem : f.s_port ∉ acc.map Forward.s_port := by simpa using hc
      have h1' : ((acc ++ [f]).map Forward.s_port).Nodup := by
        rw [List.map_append, List.nodup_append]
        refine ⟨h1, by simp, ?_⟩
        intro x hx hx'
        rw [List.map_singleton, List.mem_singleton] at hx'
        exact hmem (hx' ▸ hx)
      have h2' : ¬ (((acc ++ [f]) ++ rest).map Forward.s_port).Nodup := by
        rw [List.append_assoc]
        simpa using h2
      obtain ⟨m, hm⟩ := cliLoop_err rest (acc ++ [f]) h1' h2'
      refine ⟨m, ?_⟩
      simp only [cliLoop]
      rw [if_neg hc]
      exact hm

theorem fileLoop_cond_iff (acc : List Forward) (f : Forward) :
    (acc.length = 0 ∨ acc.all (fun g => g.s_port ≠ f.s_port))
      ↔ acc.filter (fun g => g.s_port == f.s_port) = [] := by
  constructor
  · rintro (h | h)
    · rw [List.length_eq_zero.mp h]
      rfl
    · rw [List.filter_eq_nil_iff]
      intro g hg
      have := List.all_eq_true.mp h g hg
      simpa using this
  · intro h
    right
    rw [List.all_eq_true]
    intro g hg
    have := List.filter_eq_nil_iff.mp h g hg
    simpa using this

theorem fileLoop_filter (q : Nat) :
    ∀ (file acc : List Forward),
      (fileLoop acc file).filter (fun f => f.s_port == q)
        = acc.filter (fun f => f.s_port == q)
          ++ (if acc.filter (fun f => f.s_port == q) = []
              then (file.filter (fun f => f.s_port == q)).take 1 else [])
  | [], acc => by
    simp [fileLoop]
  | f :: rest, acc => by
    by_cases hcond : acc.length = 0 ∨ acc.all (fun g => g.s_port ≠ f.s_port)
    · have hstep : fileLoop acc (f :: rest) = fileLoop (acc ++ [f]) rest := by
        simp only [fileLoop]
        rw [if_pos hcond]
      have hfe : acc.filter (fun g => g.s_port == f.s_port) = [] :=
        (fileLoop_cond_iff acc f).mp hcond
      rw [hstep, fileLoop_filter q rest (acc ++ [f])]
      by_cases hq : f.s_port = q
      · subst hq
        have hup : (acc ++ [f]).filter (fun g => g.s_port == f.s_port) = [f] := by
          rw [List.filter_append, hfe]
          simp
        rw [hup, hfe]
        simp
      · have hup : (acc ++ [f]).filter (fun g => g.s_port == q)
            = acc.filter (fun g => g.s_port == q) := by
          rw [List.filter_append]
          simp [hq]
        rw [hup, List.filter_cons_of_neg (by simp [hq])]
    · have hstep : fileLoop acc (f :: rest) = fileLoop acc rest := by
        simp only [fileLoop]
        rw [if_neg hcond]
      have hfne : acc.filter (fun g => g.s_port == f.s_port) ≠ [] := fun h =>
        hcond ((fileLoop_cond_iff acc f).mpr h)
      rw [hstep, fileLoop_filter q rest acc]
      by_cases hq : f.s_port = q
      · subst hq
        rw [if_neg hfne, if_neg hfne]
      · rw [List.filter_cons_of_neg (by simp [hq])]

theorem filter_port_length_le_one (q : Nat) :
    ∀ (l : List Forward), (l.map Forward.s_port).Nodup →
      (l.filter (fun f => f.s_port == q)).length ≤ 1
  | [], _ => by simp
  | f :: rest, h => by
    rw [List.map_cons, List.nodup_cons] at h
    by_cases hq : f.s_port = q
    · subst hq
      rw [List.filter_cons_of_pos (by simp)]
      have hrest : rest.filter (fun g => g.s_port == f.s_port) = [] := by
        rw [List.filter_eq_nil_iff]
        intro a ha
        simp only [beq_iff_eq, decide_eq_true_eq]
        intro haq
        exact h.1 (haq ▸ List.mem_map_of_mem Forward.s_port ha)
      simp [hrest]
    · rw [List.filter_cons_of_neg (by simp [hq])]
      exact filter_port_length_le_one q rest h.2

theorem perm_eq_of_short {α : Type} {l l' : List α}
    (h : l.Perm l') (hl : l'.length ≤ 1) : l = l' := by
  cases l' with
  | nil => exact h.eq_nil
  | cons a t =>
    cases t with
    | nil => exact List.perm_singleton.mp h
    | cons b t2 => simp at hl

/-- C3 counterexample: a CLI rule list that itself declares port 9000 twice,
together with a file rule list declaring 9000, makes `get_config` return an
error (Config/mod.rs lines 107-117) — no rule set containing exactly one
rule for 9000 is returned, refuting the claim's universal quantification
over every CLI rule list.  (Only *file* duplicates are deduplicated
first-seen; CLI duplicates are rejected outright, see C4.) -/
theorem C3_counterexample_duplicate_cli_rejected :
    get_config_forwards [⟨9000, 1⟩, ⟨9000, 2⟩] [⟨9000, 3⟩]
      = Except.error "Cannot declare the same port twice. Found 9000 twice." := by
  rfl

/-- C3 amended: for every CLI rule list with pairwise-distinct source ports
and every file rule list that both declare some source port `p`, the merge
in `get_config` (Config/mod.rs lines 103-143) returns a rule set with
exactly one rule for `p`, namely the first-seen rule for `p` in
CLI-then-file order (so CLI takes precedence over file, and an earlier file
line over a later one), and the returned forwards vector is sorted in
ascending order of source port. -/
theorem C3_merge_dedup_first_seen_sorted
    (cli file : List Forward) (p : Nat)
    (hnd : (cli.map Forward.s_port).Nodup)
    (hcli : p ∈ cli.map Forward.s_port)
    (hfile : p ∈ file.map Forward.s_port) :
    ∃ fs, get_config_forwards cli file = Except.ok fs
      ∧ (fs.filter (fun f => f.s_port == p)).length = 1
      ∧ fs.filter (fun f => f.s_port == p)
          = ((cli ++ file).filter (fun f => f.s_port == p)).take 1
      ∧ List.Sorted portLE fs := by
  have hok : cliLoop [] cli = Except.ok cli := by
    have := cliLoop_ok cli [] (by simpa using hnd)
    simpa using this
  obtain ⟨c, hc_mem, hc_port⟩ := List.mem_map.mp hcli
  have hcfilter_ne : cli.filter (fun f => f.s_port == p) ≠ [] := by
    intro h
    exact absurd (by simp [hc_port]) (List.filter_eq_nil_iff.mp h c hc_mem)
  have hlen1 : (cli.filter (fun f => f.s_port == p)).length = 1 := by
    have hle := filter_port_length_le_one p cli hnd
    have hpos : 0 < (cli.filter (fun f => f.s_port == p)).length :=
      List.length_pos.mpr hcfilter_ne
    omega
  obtain ⟨c0, hc0⟩ := List.length_eq_one.mp hlen1
  have hmf : (fileLoop cli file).filter (fun f => f.s_port == p)
      = cli.filter (fun f => f.s_port == p) := by
    rw [fileLoop_filter p file cli, if_neg hcfilter_ne, List.append_nil]
  have hmerged_ne : fileLoop cli file ≠ [] := by
    intro h
    apply hcfilter_ne
    rw [← hmf, h]
    rfl
  have hlen0 : ¬ ((fileLoop cli file).length = 0) := fun h =>
    hmerged_ne (List.length_eq_zero.mp h)
  have hperm : List.Perm
      ((List.insertionSort portLE (fileLoop cli file)).filter
        (fun f => f.s_port == p))
      ((fileLoop cli file).filter (fun f => f.s_port == p)) :=
    (List.perm_insertionSort portLE (fileLoop cli file)).filter _
  have hfs_filter : (List.insertionSort portLE (fileLoop cli file)).filter
        (fun f => f.s_port == p)
      = cli.filter (fun f => f.s_port == p) := by
    refine perm_eq_of_short (hmf ▸ hperm) ?_
    rw [hlen1]
  refine ⟨List.insertionSort portLE (fileLoop cli file), ?_, ?_, ?_, ?_⟩
  · simp [get_config_forwards, hok, hlen0]
  · rw [hfs_filter, hlen1]
  · rw [hfs_filter, List.filter_append, hc0]
    simp
  · exact List.sorted_insertionSort portLE (fileLoop cli file)

/-- Witness for C3's amended theorem: CLI `[9000 -> t1]`, file
`[9000 -> t3, 8000 -> t4]`, port 9000 declared by both. -/
theorem C3_merge_witness :
    ∃ fs, get_config_forwards [⟨9000, 1⟩] [⟨9000, 3⟩, ⟨8000, 4⟩] = Except.ok fs
      ∧ (fs.filter (fun f => f.s_port == 9000)).length = 1
      ∧ fs.filter (fun f => f.s_port == 9000)
          = (([⟨9000, 1⟩] ++ [⟨9000, 3⟩, ⟨8000, 4⟩] : List Forward).filter
              (fun f => f.s_port == 9000)).take 1
      ∧ List.Sorted portLE fs :=
  C3_merge_dedup_first_seen_sorted [⟨9000, 1⟩] [⟨9000, 3⟩, ⟨8000, 4⟩] 9000
    (by decide) (by decide) (by decide)

/-- C4: an argument list whose free (CLI) forward specifications declare two
rules with the same source port makes `get_config` return an error
(Config/mod.rs lines 103-119), before any listener is started — `main` only
binds listeners on a successfully returned config. -/
theorem C4_duplicate_source_port_rejected
    (cli file : List Forward) (i j : Fin cli.length)
    (hij : (i : Nat) < (j : Nat))
    (hport : (cli.get i).s_port = (cli.get j).s_port) :
    ∃ m, get_config_forwards cli file = Except.error m := by
  have hnd : ¬ (cli.map Forward.s_port).Nodup := by
    intro hnd
    have hinj := List.nodup_iff_injective_get.mp hnd
    have hi : ((i : Nat)) < (cli.map Forward.s_port).length := by
      rw [List.length_map]
      exact i.isLt
    have hj : ((j : Nat)) < (cli.map Forward.s_port).length := by
      rw [List.length_map]
      exact j.isLt
    have hget : (cli.map Forward.s_port).get ⟨i, hi⟩
        = (cli.map Forward.s_port).get ⟨j, hj⟩ := by
      rw [List.get_map, List.get_map]
      exact hport
    have := hinj hget
    rw [Fin.mk.injEq] at this
    omega
  obtain ⟨m, hm⟩ := cliLoop_err cli [] (by simp) (by simpa using hnd)
  exact ⟨m, by simp [get_config_forwards, hm]⟩

/-- Witness for C4: the CLI list declares 8080 twice. -/
theorem C4_duplicate_witness :
    ∃ m, get_config_forwards [⟨8080, 1⟩, ⟨8080, 2⟩] [] = Except.error m :=
  C4_duplicate_source_port_rejected [⟨8080, 1⟩, ⟨8080, 2⟩] []
    ⟨0, by decide⟩ ⟨1, by decide⟩ (by decide) (by decide)

theorem forward_loop_aux_eof (wa : Nat → Nat → Except IOKind Nat)
    (hwa : ∀ i n, ∃ k, wa i n = Except.ok k) :
    ∀ (pre : List (Except IOKind (List Nat))) (i : Nat)
      (post : List (Except IOKind (List Nat))),
      (∀ r ∈ pre, ∃ c, r = Except.ok c ∧ c ≠ []) →
      forward_loop_aux wa (pre ++ Except.ok [] :: post) i
        = forward_loop_aux wa (pre ++ [Except.ok []]) i
  | [], _, _, _ => rfl
  | r :: pre, i, post, hpre => by
    obtain ⟨c, rfl, hc⟩ := hpre r (List.mem_cons_self r pre)
    obtain ⟨k, hk⟩ := hwa i c.length
    have hclen : ¬ (c.length = 0) := fun h => hc (List.length_eq_zero.mp h)
    have ih := forward_loop_aux_eof wa hwa pre (i + 1) post
      (fun x hx => hpre x (List.mem_cons_of_mem _ hx))
    simp only [List.cons_append, forward_loop_aux, hclen, if_false, hk,
      List.append_eq]
    rw [ih]

theorem forward_loop_aux_res_ok (wa : Nat → Nat → Except IOKind Nat)
    (hwa : ∀ i n, ∃ k, wa i n = Except.ok k) :
    ∀ (pre : List (Except IOKind (List Nat))) (i : Nat),
      (∀ r ∈ pre, ∃ c, r = Except.ok c ∧ c ≠ []) →
      (forward_loop_aux wa (pre ++ [Except.ok []]) i).res = Except.ok ()
  | [], _, _ => rfl
  | r :: pre, i, hpre => by
    obtain ⟨c, rfl, hc⟩ := hpre r (List.mem_cons_self r pre)
    obtain ⟨k, hk⟩ := hwa i c.length
    have hclen : ¬ (c.length = 0) := fun h => hc (List.length_eq_zero.mp h)
    have ih := forward_loop_aux_res_ok wa hwa pre (i + 1)
      (fun x hx => hpre x (List.mem_cons_of_mem _ hx))
    simp only [List.cons_append, forward_loop_aux, hclen, if_false, hk,
      List.append_eq]
    exact ih

/-- C7: in the copy loop and its wrapper (ConnHandle/mod.rs lines 205-260),
for a healthy target (`hwa`: every write call succeeds) and any run of
successful non-empty reads followed by a zero-byte read (end of stream):
(1) the loop stops at the zero-byte read — whatever events would follow are
never consumed — and returns `Ok`;
(2) the destination's write side is half-closed: after `handle_forward` the
target socket's write direction is shut down while its read direction is
exactly as before (only the write direction, never the full socket);
(3) a half-close failing with a "not connected"/already-closed error is
treated as success: the aggregate result is `Ok`;
(4) a half-close failing with any other error is recorded in the returned
aggregate error (loop error `none`, shutdown error `some e`);
(5) for *any* read sequence, a loop I/O error `e` is recorded as the
`loop_error` component of the returned aggregate error. -/
theorem C7_eof_halfclose_error_aggregation
    (pre post reads : List (Except IOKind (List Nat)))
    (wa : Nat → Nat → Except IOKind Nat) (sock : TcpDuplex)
    (sres : Except IOKind Unit)
    (hpre : ∀ r ∈ pre, ∃ c, r = Except.ok c ∧ c ≠ [])
    (hwa : ∀ i n, ∃ k, wa i n = Except.ok k) :
    (forward_loop wa (pre ++ Except.ok [] :: post)
        = forward_loop wa (pre ++ [Except.ok []])
      ∧ (forward_loop wa (pre ++ Except.ok [] :: post)).res = Except.ok ())
    ∧ ((handle_forward wa reads sock sres).2.1.writeOpen = false
      ∧ (handle_forward wa reads sock sres).2.1.readOpen = sock.readOpen)
    ∧ (sres = Except.error IOKind.notConnected →
        (handle_forward wa (pre ++ Except.ok [] :: post) sock sres).2.2
          = Except.ok ())
    ∧ (∀ e, e ≠ IOKind.notConnected → sres = Except.error e →
        (handle_forward wa (pre ++ Except.ok [] :: post) sock sres).2.2
          = Except.error ⟨none, some e⟩)
    ∧ (∀ e, (forward_loop wa reads).res = Except.error e →
        ∃ se, (handle_forward wa reads sock sres).2.2
          = Except.error ⟨some e, se⟩) := by
  have heof := forward_loop_aux_eof wa hwa pre 0 post hpre
  have hres : (forward_loop wa (pre ++ Except.ok [] :: post)).res
      = Except.ok () := by
    simp only [forward_loop, heof]
    exact forward_loop_aux_res_ok wa hwa pre 0 hpre
  refine ⟨⟨by simp only [forward_loop, heof], hres⟩, ?_, ?_, ?_, ?_⟩
  · exact ⟨rfl, rfl⟩
  · intro hs
    simp [handle_forward, shutdown_result_map, hs, hres]
  · intro e hne hs
    simp [handle_forward, shutdown_result_map, hs, hne, hres]
  · intro e he
    refine ⟨match shutdown_result_map sres with
      | Except.ok _ => none
      | Except.error e' => some e', ?_⟩
    simp only [handle_forward, he]
    cases shutdown_result_map sres <;> simp

/-- Witness for C7: one 1-byte chunk, then EOF, then a trailing read error
that the loop never consumes; target accepts every write; the half-close
fails with "not connected", which is treated as success. -/
theorem C7_eof_halfclose_witness :
    (forward_loop (fun _ n => Except.ok n)
          [Except.ok [1], Except.ok [], Except.error (IOKind.other 3)]
        = forward_loop (fun _ n => Except.ok n) [Except.ok [1], Except.ok []]
      ∧ (forward_loop (fun _ n => Except.ok n)
          [Except.ok [1], Except.ok [], Except.error (IOKind.other 3)]).res
        = Except.ok ())
    ∧ ((handle_forward (fun _ n => Except.ok n) [Except.ok [2]] ⟨true, true⟩
          (Except.error IOKind.notConnected)).2.1.writeOpen = false
      ∧ (handle_forward (fun _ n => Except.ok n) [Except.ok [2]] ⟨true, true⟩
          (Except.error IOKind.notConnected)).2.1.readOpen
        = (⟨true, true⟩ : TcpDuplex).readOpen)
    ∧ (Except.error IOKind.notConnected
          = (Except.error IOKind.notConnected : Except IOKind Unit) →
        (handle_forward (fun _ n => Except.ok n)
          [Except.ok [1], Except.ok [], Except.error (IOKind.other 3)]
          ⟨true, true⟩ (Except.error IOKind.notConnected)).2.2 = Except.ok ())
    ∧ (∀ e, e ≠ IOKind.notConnected →
        (Except.error IOKind.notConnected : Except IOKind Unit)
          = Except.error e →
        (handle_forward (fun _ n => Except.ok n)
          [Except.ok [1], Except.ok [], Except.error (IOKind.other 3)]
          ⟨true, true⟩ (Except.error IOKind.notConnected)).2.2
          = Except.error ⟨none, some e⟩)
    ∧ (∀ e, (forward_loop (fun _ n => Except.ok n) [Except.ok [2]]).res
          = Except.error e →
        ∃ se, (handle_forward (fun _ n => Except.ok n) [Except.ok [2]]
          ⟨true, true⟩ (Except.error IOKind.notConnected)).2.2
          = Except.error ⟨some e, se⟩) :=
  C7_eof_halfclose_error_aggregation [Except.ok [1]]
    [Except.error (IOKind.other 3)] [Except.ok [2]]
    (fun _ n => Except.ok n) ⟨true, true⟩ (Except.error IOKind.notConnected)
    (fun r hr => by
      rw [List.mem_singleton] at hr
      exact ⟨[1], hr, by decide⟩)
    (fun _ n => ⟨n, rfl⟩)

end Portforward
